import Mathlib

/-!
Verification of the SmartSkip player core against its natural-language
specification.

The development shallowly embeds the four source files:
  * `src/types.ts` — `isYoutubeUrl`, the URL sanitizer and the resolver chain
    of `resolveYoutubeUrl` (the nine-instance variant the claims cite);
  * `src/unnamed/part_000` — `handleUrlSubmit`, the download chain with its
    direct fast path and three CORS relay strategies;
  * `src/App.tsx` / `src/components/VideoPlayer.tsx` — the segment-skip
    playback engine (`handleTimeUpdate`, `changeSpeed`, `toggleSmartSkip`,
    `toggleSmartTurbo`, `activateSmartTurbo`).

JavaScript numbers that only ever hold playback times and rates are modelled
as `ℚ` (the code never does arithmetic on them that could overflow or round
in a way any claim depends on; it only compares and assigns).  Network
effects (`fetch`, resolver backends) are modelled as explicit oracles passed
to the embedded functions, and each embedded pipeline additionally returns
the trace of requests it issued so that call-order claims can be stated.
-/

/-! ### Small string utilities mirroring the JavaScript string primitives -/

/-- `containsSub needle hay` decides whether `needle` occurs as a contiguous
substring of `hay` (the semantics of JavaScript `String.prototype.includes`,
which is true for the empty needle). -/
def containsSub (needle : List Char) : List Char → Bool
  | [] => needle.isEmpty
  | c :: rest => needle.isPrefixOf (c :: rest) || containsSub needle rest

/-- JavaScript `hay.includes(needle)`. -/
def strContains (hay needle : String) : Bool :=
  containsSub needle.data hay.data

/-- JavaScript `s.split(sep)` for a one-character separator: the list of
(possibly empty) chunks between occurrences of `sep`.  `''.split(sep)`
returns `['']`, matching the `[[]]` base case. -/
def splitOnChar (sep : Char) : List Char → List (List Char)
  | [] => [[]]
  | c :: rest =>
    match splitOnChar sep rest with
    | [] => [[c]]
    | h :: t => if c = sep then [] :: h :: t else (c :: h) :: t

/-- Hexadecimal digit test, both cases, as in percent-escape parsing. -/
def isHexDigit (c : Char) : Bool :=
  ('0' ≤ c && c ≤ '9') || ('a' ≤ c && c ≤ 'f') || ('A' ≤ c && c ≤ 'F')

/-- Numeric value of a hexadecimal digit. -/
def hexVal (c : Char) : Nat :=
  if '0' ≤ c && c ≤ '9' then c.toNat - 48
  else if 'a' ≤ c && c ≤ 'f' then c.toNat - 87
  else if 'A' ≤ c && c ≤ 'F' then c.toNat - 55
  else 0

/-- Uppercase hexadecimal digit for a value below 16, as produced by
JavaScript `encodeURIComponent`. -/
def hexDigitUpper (n : Nat) : Char :=
  if n < 10 then Char.ofNat (48 + n) else Char.ofNat (55 + n)

/-- ASCII lowercasing, as applied by the WHATWG URL parser to scheme and
host. -/
def asciiLower (c : Char) : Char :=
  if 'A' ≤ c && c ≤ 'Z' then Char.ofNat (c.toNat + 32) else c

/-- `application/x-www-form-urlencoded` decoding as performed by
`URLSearchParams`: `+` becomes a space and `%XX` with two hex digits becomes
the character with that code (the inputs relevant here are ASCII); a
malformed percent sign is kept literally. -/
def formDecode : List Char → List Char
  | [] => []
  | '+' :: rest => ' ' :: formDecode rest
  | '%' :: c1 :: c2 :: rest =>
    if isHexDigit c1 && isHexDigit c2 then
      Char.ofNat (16 * hexVal c1 + hexVal c2) :: formDecode rest
    else '%' :: formDecode (c1 :: c2 :: rest)
  | c :: rest => c :: formDecode rest

/-- UTF-8 encoding of one character, byte values as naturals. -/
def charUtf8 (c : Char) : List Nat :=
  let n := c.toNat
  if n < 128 then [n]
  else if n < 2048 then [192 + n / 64, 128 + n % 64]
  else if n < 65536 then [224 + n / 4096, 128 + (n / 64) % 64, 128 + n % 64]
  else [240 + n / 262144, 128 + (n / 4096) % 64, 128 + (n / 64) % 64, 128 + n % 64]

/-- A byte left unescaped by JavaScript `encodeURIComponent`:
`A-Z a-z 0-9 - _ . ! ~ * ' ( )`. -/
def uriUnreserved (b : Nat) : Bool :=
  (65 ≤ b && b ≤ 90) || (97 ≤ b && b ≤ 122) || (48 ≤ b && b ≤ 57) ||
  (b == 45) || (b == 95) || (b == 46) || (b == 33) || (b == 126) ||
  (b == 42) || (b == 39) || (b == 40) || (b == 41)

/-- JavaScript `encodeURIComponent`: percent-escapes every UTF-8 byte outside
the unreserved set, with uppercase hex digits. -/
def encodeURIComponent (s : String) : String :=
  ⟨(s.data.flatMap charUtf8).flatMap fun b =>
    if uriUnreserved b then [Char.ofNat b]
    else ['%', hexDigitUpper (b / 16), hexDigitUpper (b % 16)]⟩

/-! ### The URL model

The sanitizer in `src/types.ts` uses the platform `URL` class:
`new URL(url)` (throwing on unparsable input), `urlObj.hostname`,
`urlObj.pathname` and `urlObj.searchParams.get('v')`.  `URLObj` and `newURL`
model the fragment of WHATWG URL parsing those uses exercise: a scheme
followed by `://`, an authority whose userinfo (up to the last `@`) and port
(after the first `:`) are dropped and whose host is lowercased, a raw path
(percent-escapes preserved, empty path rendered `/`), and a raw query
between `?` and `#`.  Any input not of this shape is a parse failure,
standing for the constructor throwing. -/

structure URLObj where
  scheme : String
  hostname : String
  pathname : String
  search : String
deriving DecidableEq, Repr

/-- A character allowed in a URL scheme. -/
def isSchemeChar (c : Char) : Bool :=
  c.isAlphanum || c == '+' || c == '-' || c == '.'

/-- Model of `new URL(s)`: `none` stands for the constructor throwing. -/
def newURL (s : String) : Option URLObj :=
  let cs := s.data
  let schemePart := cs.takeWhile (fun c => c != ':')
  let rest1 := cs.dropWhile (fun c => c != ':')
  if schemePart.isEmpty then none
  else if !(schemePart.all isSchemeChar) then none
  else if !(schemePart.headD ' ').isAlpha then none
  else
    match rest1 with
    | ':' :: '/' :: '/' :: rest2 =>
      let authority := rest2.takeWhile (fun c => c != '/' && c != '?' && c != '#')
      let rest3 := rest2.dropWhile (fun c => c != '/' && c != '?' && c != '#')
      let hostPort := (authority.reverse.takeWhile (fun c => c != '@')).reverse
      let host := hostPort.takeWhile (fun c => c != ':')
      if host.isEmpty then none
      else
        let pathCs := rest3.takeWhile (fun c => c != '?' && c != '#')
        let rest4 := rest3.dropWhile (fun c => c != '?' && c != '#')
        let queryCs :=
          match rest4 with
          | '?' :: q => q.takeWhile (fun c => c != '#')
          | _ => []
        some ⟨⟨schemePart.map asciiLower⟩, ⟨host.map asciiLower⟩,
              ⟨if pathCs.isEmpty then ['/'] else pathCs⟩, ⟨queryCs⟩⟩
    | _ => none

/-- The key of one `k=v` piece of a query string (everything before the
first `=`). -/
def queryPieceKey (piece : List Char) : List Char :=
  piece.takeWhile (fun c => c != '=')

/-- The raw value of one `k=v` piece of a query string (everything after the
first `=`; empty when there is no `=`). -/
def queryPieceVal (piece : List Char) : List Char :=
  match piece.dropWhile (fun c => c != '=') with
  | _ :: v => v
  | [] => []

/-- Model of `urlObj.searchParams.get(key)`: split the raw query on `&`,
ignore empty pieces, split each piece at its first `=`, form-decode both
sides, and return the decoded value of the first piece whose decoded key
matches. -/
def searchParamsGet (search : String) (key : String) : Option String :=
  let pieces := (splitOnChar '&' search.data).filter (fun p => !p.isEmpty)
  match pieces.find? (fun p => formDecode (queryPieceKey p) == key.data) with
  | some p => some ⟨formDecode (queryPieceVal p)⟩
  | none => none

/-! ### `src/types.ts`: classification and the link normalizer -/

/-- `src/types.ts` lines 23–25. -/
def isYoutubeUrl (url : String) : Bool :=
  strContains url "youtube.com" || strContains url "youtu.be"

/-- The sanitize step of `resolveYoutubeUrl` (`src/types.ts` lines 41–55):
the Link Normalizer.  A `youtu.be` host is rewritten to the long watch form
from the path (minus its leading `/`); a host containing `youtube.com` is
rewritten from its `v` query parameter when that parameter is present and
non-empty (JavaScript `if (v)`); every other input, and any input `new URL`
rejects, is returned unchanged. -/
def sanitizeUrl (url : String) : String :=
  match newURL url with
  | none => url
  | some u =>
    if u.hostname = "youtu.be" then
      "https://www.youtube.com/watch?v=" ++ String.mk (u.pathname.data.drop 1)
    else if strContains u.hostname "youtube.com" then
      match searchParamsGet u.search "v" with
      | some v => if v = "" then url else "https://www.youtube.com/watch?v=" ++ v
      | none => url
    else url

/-! ### `src/types.ts`: the resolver chain of `resolveYoutubeUrl`

Each backend is one of the nine cobalt instances.  What the network returns
for a `POST` to a backend is abstracted as a `BackendResponse` supplied by
an oracle; `tryBackend` is the per-backend body of the `for` loop (content
type check, then the four-way status dispatch), its `Except.error` standing
for the various `throw`s that the loop's `catch` turns into `lastError`. -/

/-- One entry of a cobalt `picker` array (`{type, url, ...}`). -/
structure PickerItem where
  ptype : String
  url : String
deriving DecidableEq, Repr

/-- The parsed JSON payload of a backend response, by its `status` field. -/
inductive CobaltPayload where
  | statusError (text : String)
  | picker (items : List PickerItem)
  | stream (url : String)
  | redirect (url : String)
  | other
deriving DecidableEq, Repr

/-- What one `fetch` of a backend produces: a thrown error (network failure
or JSON parse failure), or a response with its declared `content-type`
header (`none` when the header is absent) and parsed payload. -/
inductive BackendResponse where
  | thrown (msg : String)
  | response (contentType : Option String) (payload : CobaltPayload)
deriving DecidableEq, Repr

/-- The per-backend body of the resolver loop (`src/types.ts` lines 61–105):
require a `content-type` containing `application/json`, then dispatch on the
payload status — `error` rethrows its text (default when empty, modelling the
falsy check of `data.text || ...`), `picker` takes the first item of type
`"video"`, `stream`/`redirect` succeed with the payload URL, anything else
is an unexpected format.  An `Except.error` is what the loop records as
`lastError` before moving on. -/
def tryBackend (r : BackendResponse) : Except String String :=
  match r with
  | .thrown m => .error m
  | .response none _ => .error "Invalid content-type: null"
  | .response (some ct) p =>
    if !strContains ct "application/json" then .error ("Invalid content-type: " ++ ct)
    else
      match p with
      | .statusError t => .error (if t = "" then "Resolver returned error" else t)
      | .picker items =>
        match items.find? (fun it => it.ptype == "video") with
        | some it => .ok it.url
        | none => .error "No video stream found in picker"
      | .stream u => .ok u
      | .redirect u => .ok u
      | .other => .error "Unexpected response format"

/-- The fixed list of resolver instances (`src/types.ts` lines 29–39). -/
def instances : List String :=
  ["https://co.wuk.sh/api/json",
   "https://api.succubus.space/api/json",
   "https://cobalt.kwiatekmiki.pl/api/json",
   "https://cobalt.qkv.fun/api/json",
   "https://api.cobalt.tools/api/json",
   "https://cobalt.slpy.one/api/json",
   "https://api.server.exelban.com/api/json",
   "https://cobalt.xy2401.com/api/json",
   "https://cobalt.arms.nu/api/json"]

/-- The message of the terminal error thrown when every instance has failed
(`src/types.ts` line 109).  Note it is a fixed string: `lastError` is passed
to `console.error`, not to this `Error`. -/
def resolveExhaustedMsg : String :=
  "Failed to resolve YouTube URL. The video might be restricted, or servers are busy. Please try again."

/-- The `for (const apiBase of instances)` loop of `resolveYoutubeUrl`:
returns the overall result, the final value of the `lastError` variable, and
the list of instances actually contacted, in order.  `tb` gives the outcome
of contacting one instance. -/
def resolveChain (tb : String → Except String String) :
    List String → Option String → Except String String × Option String × List String
  | [], lastErr => (.error resolveExhaustedMsg, lastErr, [])
  | api :: rest, lastErr =>
    match tb api with
    | .ok u => (.ok u, lastErr, [api])
    | .error e =>
      let (r, le, tr) := resolveChain tb rest (some e)
      (r, le, api :: tr)

/-- `resolveYoutubeUrl` (`src/types.ts` lines 27–110): sanitize the URL,
then try each instance in order.  The oracle receives the instance endpoint
and the request body's `url` field (the sanitized link, identical for every
attempt). -/
def resolveYoutubeUrl (oracle : String → String → BackendResponse) (url : String) :
    Except String String × Option String × List String :=
  let cleanUrl := sanitizeUrl url
  resolveChain (fun api => tryBackend (oracle api cleanUrl)) instances none

/-! ### The segment-skip playback engine

`src/App.tsx` lines 186–284 and `src/components/VideoPlayer.tsx` lines
11–99.  The two copies of `handleTimeUpdate`, `changeSpeed` and
`toggleSmartSkip` are identical; the turbo handlers differ
(`toggleSmartTurbo` in `App.tsx`, `activateSmartTurbo` in
`VideoPlayer.tsx`) and are both embedded.  `videoCurrentTime` is the media
element's `currentTime` (the play head); `currentTime` is the mirrored React
state; `playbackRate` stands for the React state and the element rate, which
the code always assigns together.  The 800 ms `setTimeout` that clears
`isSkipping` is a later event outside a single notification and is not part
of these transition functions. -/

/-- `SkipSegment` of `src/types.ts` lines 1–5; `endT` embeds the source
field `end` (a Lean keyword). -/
structure SkipSegment where
  start : ℚ
  endT : ℚ
  reason : String
deriving DecidableEq, Repr

/-- The reactive player state touched by the engine. -/
structure PlayerState where
  videoCurrentTime : ℚ
  currentTime : ℚ
  playbackRate : ℚ
  smartSkipEnabled : Bool
  isSkipping : Bool
  skipReason : Option String
deriving DecidableEq, Repr

/-- The predicate of `skipSegments.find(seg => time >= seg.start && time < seg.end)`. -/
def segMatches (time : ℚ) (seg : SkipSegment) : Bool :=
  decide (seg.start ≤ time) && decide (time < seg.endT)

/-- `handleTimeUpdate` (`src/components/VideoPlayer.tsx` lines 36–61 and
`src/App.tsx` lines 211–236): read the play head, mirror it into the React
state, and — when smart skip is enabled and the segment list non-empty —
find the first listed segment containing the time and jump the play head to
its `end`, flagging the skip with its reason. -/
def handleTimeUpdate (skipSegments : List SkipSegment) (s : PlayerState) : PlayerState :=
  let time := s.videoCurrentTime
  let s1 := { s with currentTime := time }
  if s1.smartSkipEnabled && decide (0 < skipSegments.length) then
    match skipSegments.find? (segMatches time) with
    | some seg =>
      { s1 with isSkipping := true, skipReason := some seg.reason,
                videoCurrentTime := seg.endT }
    | none => s1
  else s1

/-- `changeSpeed` (`src/App.tsx` lines 254–260). -/
def changeSpeed (speed : ℚ) (s : PlayerState) : PlayerState :=
  { s with playbackRate := speed }

/-- `toggleSmartSkip` (`src/App.tsx` lines 262–265). -/
def toggleSmartSkip (s : PlayerState) : PlayerState :=
  { s with smartSkipEnabled := !s.smartSkipEnabled }

/-- `toggleSmartTurbo` (`src/App.tsx` lines 267–281): derive whether turbo
is effectively on (`playbackRate === 2.0 && smartSkipEnabled`), then either
revert to the 1x base rate with skipping off, or force rate 2 with skipping
on. -/
def toggleSmartTurbo (s : PlayerState) : PlayerState :=
  let isTurbo := decide (s.playbackRate = 2) && s.smartSkipEnabled
  if isTurbo then { s with playbackRate := 1, smartSkipEnabled := false }
  else { s with playbackRate := 2, smartSkipEnabled := true }

/-- `activateSmartTurbo` (`src/components/VideoPlayer.tsx` lines 94–99):
unconditionally force rate 2 with skipping on. -/
def activateSmartTurbo (s : PlayerState) : PlayerState :=
  { s with playbackRate := 2, smartSkipEnabled := true }

/-- `isTurboActive` (`src/App.tsx` line 284): the derived turbo condition —
there is no stored mode value. -/
def isTurboActive (s : PlayerState) : Bool :=
  decide (s.playbackRate = 2) && s.smartSkipEnabled

/-- The spec's `{OFF, SKIP_ONLY, TURBO}` mode, as a view derived from the
stored state: TURBO is the derived turbo condition, SKIP_ONLY is skipping
without the turbo rate, OFF is skipping disabled. -/
inductive PlayMode where
  | OFF
  | SKIP_ONLY
  | TURBO
deriving DecidableEq, Repr

/-- The derived mode of a player state. -/
def modeOf (s : PlayerState) : PlayMode :=
  if isTurboActive s then .TURBO
  else if s.smartSkipEnabled then .SKIP_ONLY
  else .OFF

/-! ### `src/unnamed/part_000`: `handleUrlSubmit`, the download chain

The URL-submission handler classifies the reference with `isYoutubeUrl`,
resolves it through the resolver chain when indirect, then runs the proxy
fallback loop.  The network is an oracle `fetchO : String → FetchResult`;
the embedding returns the outcome (the acquired file or the caught error
message) together with the trace of requests, so that fast-path and routing
claims can talk about which fetches happened. -/

/-- A JavaScript `Blob` as the claims need it: its declared MIME type
(empty string when absent, matching the falsy check `blob.type || ...`). -/
structure JsBlob where
  btype : String
deriving DecidableEq, Repr

/-- The outcome of one `fetch`: the promise rejecting, or a response with
an HTTP status whose body yields the given blob. -/
inductive FetchResult where
  | thrown (msg : String)
  | response (status : Nat) (blob : JsBlob)
deriving DecidableEq, Repr

/-- `res.ok`: status in the inclusive range 200–299. -/
def resOk (status : Nat) : Bool :=
  decide (200 ≤ status) && decide (status < 300)

/-- First proxy strategy: `https://corsproxy.io/?${encodeURIComponent(u)}`. -/
def proxyCorsproxy (u : String) : String :=
  "https://corsproxy.io/?" ++ encodeURIComponent u

/-- Second proxy strategy: `https://api.allorigins.win/raw?url=${encodeURIComponent(u)}`. -/
def proxyAllorigins (u : String) : String :=
  "https://api.allorigins.win/raw?url=" ++ encodeURIComponent u

/-- Third proxy strategy: `https://thingproxy.freeboard.io/fetch/${u}`. -/
def proxyThingproxy (u : String) : String :=
  "https://thingproxy.freeboard.io/fetch/" ++ u

/-- The `proxyStrategies` array (`src/unnamed/part_000` lines 54–58),
indexed so the loop's `createProxy === proxyStrategies[0]` identity test can
be expressed. -/
def proxyStrategies : List (Nat × (String → String)) :=
  [(0, proxyCorsproxy), (1, proxyAllorigins), (2, proxyThingproxy)]

/-- An event of the acquisition pipeline's request trace. -/
inductive AcqEv where
  | resolve (url : String)
  | fetch (url : String)
deriving DecidableEq, Repr

/-- The nested direct attempt (`src/unnamed/part_000` lines 70–78): on the
first strategy of a non-YouTube source, fetch the unproxied `fetchUrl`; a
2xx response yields its body, any other outcome yields nothing (the inner
`catch` swallows a thrown error, and a non-ok status merely falls through).
Returns the blob (if obtained) and the fetch trace of the attempt. -/
def directAttempt (fetchO : String → FetchResult) (isYT : Bool) (fetchUrl : String)
    (i : Nat) : Option JsBlob × List AcqEv :=
  if !isYT && i == 0 then
    match fetchO fetchUrl with
    | .response st b => if resOk st then (some b, [.fetch fetchUrl]) else (none, [.fetch fetchUrl])
    | .thrown _ => (none, [.fetch fetchUrl])
  else (none, [])

/-- The `for (const createProxy of proxyStrategies)` loop
(`src/unnamed/part_000` lines 60–88), returning the blob (if any), the final
`lastError` value, and the fetch trace.  Each iteration runs the
`directAttempt` (a success breaks out of the loop), then the proxied fetch:
a 2xx response breaks out with its body, a non-ok status throws
`Status ...`, and each caught error is recorded in `lastError` before the
loop continues with the next strategy. -/
def downloadLoop (fetchO : String → FetchResult) (isYT : Bool) (fetchUrl : String) :
    List (Nat × (String → String)) → Option String →
    Option JsBlob × Option String × List AcqEv
  | [], lastErr => (none, lastErr, [])
  | (i, create) :: rest, lastErr =>
    match directAttempt fetchO isYT fetchUrl i with
    | (some b, tr) => (some b, lastErr, tr)
    | (none, tr0) =>
      match fetchO (create fetchUrl) with
      | .response st b =>
        if resOk st then (some b, lastErr, tr0 ++ [.fetch (create fetchUrl)])
        else
          let (r, le, tr) := downloadLoop fetchO isYT fetchUrl rest (some ("Status " ++ toString st))
          (r, le, tr0 ++ .fetch (create fetchUrl) :: tr)
      | .thrown m =>
        let (r, le, tr) := downloadLoop fetchO isYT fetchUrl rest (some m)
        (r, le, tr0 ++ .fetch (create fetchUrl) :: tr)

/-- The acquired media as the claims see it: filename and MIME type of the
`File` built at `src/unnamed/part_000` line 96. -/
structure AcquiredFile where
  fname : String
  ftype : String
deriving DecidableEq, Repr

/-- The filename derivation for a direct source
(`urlInput.split('/').pop()?.split('?')[0] || 'video.mp4'`, line 95): last
`/`-chunk of the raw reference, query-string suffix stripped, falling back
to the generic name when empty. -/
def fileNameOf (u : String) : String :=
  let lastSeg := (splitOnChar '/' u.data).getLastD []
  let base := (splitOnChar '?' lastSeg).headD []
  if base.isEmpty then "video.mp4" else ⟨base⟩

/-- Lines 90–96: fail with the last recorded error when no strategy
produced a blob, otherwise wrap the blob as a named, typed file. -/
def finishAcquisition (blob? : Option JsBlob) (lastErr : Option String)
    (isYT : Bool) (urlInput : String) : Except String AcquiredFile :=
  match blob? with
  | none => .error ("Failed to download video. " ++ (lastErr.getD ""))
  | some b =>
    .ok ⟨if isYT then "youtube_video.mp4" else fileNameOf urlInput,
         if b.btype = "" then "video/mp4" else b.btype⟩

instance {ε α : Type} [DecidableEq ε] [DecidableEq α] : DecidableEq (Except ε α) := fun a b =>
  match a, b with
  | .ok x, .ok y =>
    if h : x = y then .isTrue (by rw [h]) else .isFalse (by intro hc; cases hc; exact h rfl)
  | .error x, .error y =>
    if h : x = y then .isTrue (by rw [h]) else .isFalse (by intro hc; cases hc; exact h rfl)
  | .ok _, .error _ => .isFalse (by intro hc; cases hc)
  | .error _, .ok _ => .isFalse (by intro hc; cases hc)

/-- `handleUrlSubmit` (`src/unnamed/part_000` lines 32–109), its URL-path
core: classify the reference, resolve it when indirect (a resolution failure
aborts the pipeline with that error), run the download loop — whose direct
fast path is enabled exactly when the source is not indirect — and derive
the file.  Also returns the request trace (one `resolve` event for the
resolver stage, one `fetch` event per network fetch). -/
def handleUrlSubmit (resolveO : String → String → BackendResponse)
    (fetchO : String → FetchResult) (urlInput : String) :
    Except String AcquiredFile × List AcqEv :=
  let isYT := isYoutubeUrl urlInput
  if isYT then
    match resolveYoutubeUrl resolveO urlInput with
    | (.error e, _, _) => (.error e, [.resolve urlInput])
    | (.ok fetchUrl, _, _) =>
      let (blob?, lastErr, dtr) := downloadLoop fetchO true fetchUrl proxyStrategies none
      (finishAcquisition blob? lastErr true urlInput, .resolve urlInput :: dtr)
  else
    let (blob?, lastErr, dtr) := downloadLoop fetchO false urlInput proxyStrategies none
    (finishAcquisition blob? lastErr false urlInput, dtr)

/-- Model sanity check matching the spec's end-to-end scenario: a
`youtu.be` reference is normalized, resolved (here by the first instance) to
a CDN URL, and downloaded through the first relay; the acquired file gets
the fixed indirect-source name and the blob's declared type. -/
theorem handleUrlSubmit_end_to_end :
    handleUrlSubmit
      (fun api _ => if api == "https://co.wuk.sh/api/json" then
          .response (some "application/json") (.stream "https://cdn/x.mp4")
        else .thrown "f")
      (fun u => if u == proxyCorsproxy "https://cdn/x.mp4" then
          .response 200 ⟨"video/webm"⟩ else .thrown "x")
      "https://youtu.be/abc123" =
      (.ok ⟨"youtube_video.mp4", "video/webm"⟩,
       [.resolve "https://youtu.be/abc123",
        .fetch (proxyCorsproxy "https://cdn/x.mp4")]) := by
  decide


/-! ### Helper lemmas -/

/-- `List.find?` returns the entry at the least matching index. -/
theorem find?_first_match {α : Type} (p : α → Bool) (l : List α) :
    ∀ (i : Nat) (hi : i < l.length),
      p l[i] = true →
      (∀ j (hj : j < l.length), j < i → p l[j] = false) →
      l.find? p = some l[i] := by
  induction l with
  | nil => intro i hi _ _; simp at hi
  | cons a t ih =>
    intro i hi hm hf
    cases i with
    | zero =>
      simp only [List.getElem_cons_zero] at hm ⊢
      simp [List.find?, hm]
    | succ n =>
      have ha : p a = false := hf 0 (by simp) (Nat.succ_pos n)
      have ht := ih n (by simpa using hi) (by simpa using hm)
        (fun j hj hlt => by
          have := hf (j + 1) (by simpa using Nat.succ_lt_succ hj) (Nat.succ_lt_succ hlt)
          simpa using this)
      simp [List.find?, ha, ht]

/-- Unfolding step: a successful direct attempt ends the download loop. -/
theorem downloadLoop_cons_direct (fetchO : String → FetchResult) (isYT : Bool)
    (fetchUrl : String) (i : Nat) (create : String → String)
    (rest : List (Nat × (String → String))) (le : Option String) (b : JsBlob)
    (tra : List AcqEv) (hda : directAttempt fetchO isYT fetchUrl i = (some b, tra)) :
    downloadLoop fetchO isYT fetchUrl ((i, create) :: rest) le = (some b, le, tra) := by
  rw [downloadLoop, hda]

/-- Unfolding step: direct attempt without a blob, then a 2xx proxied fetch. -/
theorem downloadLoop_cons_proxy_ok (fetchO : String → FetchResult) (isYT : Bool)
    (fetchUrl : String) (i : Nat) (create : String → String)
    (rest : List (Nat × (String → String))) (le : Option String) (tr0 : List AcqEv)
    (st : Nat) (b : JsBlob)
    (hda : directAttempt fetchO isYT fetchUrl i = (none, tr0))
    (hpf : fetchO (create fetchUrl) = .response st b)
    (hok : resOk st = true) :
    downloadLoop fetchO isYT fetchUrl ((i, create) :: rest) le =
      (some b, le, tr0 ++ [.fetch (create fetchUrl)]) := by
  rw [downloadLoop, hda, hpf]
  simp [hok]

/-- Unfolding step: direct attempt without a blob, then a non-2xx proxied
response; the loop records `Status ...` and continues. -/
theorem downloadLoop_cons_proxy_bad (fetchO : String → FetchResult) (isYT : Bool)
    (fetchUrl : String) (i : Nat) (create : String → String)
    (rest : List (Nat × (String → String))) (le : Option String) (tr0 : List AcqEv)
    (st : Nat) (b : JsBlob) (r : Option JsBlob) (le2 : Option String) (tr2 : List AcqEv)
    (hda : directAttempt fetchO isYT fetchUrl i = (none, tr0))
    (hpf : fetchO (create fetchUrl) = .response st b)
    (hok : resOk st = false)
    (hrec : downloadLoop fetchO isYT fetchUrl rest (some ("Status " ++ toString st)) =
      (r, le2, tr2)) :
    downloadLoop fetchO isYT fetchUrl ((i, create) :: rest) le =
      (r, le2, tr0 ++ .fetch (create fetchUrl) :: tr2) := by
  rw [downloadLoop, hda, hpf]
  simp [hok, hrec]

/-- Unfolding step: direct attempt without a blob, then a thrown proxied
fetch; the loop records the error and continues. -/
theorem downloadLoop_cons_proxy_thrown (fetchO : String → FetchResult) (isYT : Bool)
    (fetchUrl : String) (i : Nat) (create : String → String)
    (rest : List (Nat × (String → String))) (le : Option String) (tr0 : List AcqEv)
    (m : String) (r : Option JsBlob) (le2 : Option String) (tr2 : List AcqEv)
    (hda : directAttempt fetchO isYT fetchUrl i = (none, tr0))
    (hpf : fetchO (create fetchUrl) = .thrown m)
    (hrec : downloadLoop fetchO isYT fetchUrl rest (some m) = (r, le2, tr2)) :
    downloadLoop fetchO isYT fetchUrl ((i, create) :: rest) le =
      (r, le2, tr0 ++ .fetch (create fetchUrl) :: tr2) := by
  rw [downloadLoop, hda, hpf]
  simp [hrec]

/-- A successful `directAttempt` comes from a 2xx response of the unproxied
`fetchUrl`, and its trace is exactly that single fetch. -/
theorem directAttempt_some (fetchO : String → FetchResult) (isYT : Bool)
    (fetchUrl : String) (i : Nat) (b : JsBlob) (tr : List AcqEv) :
    directAttempt fetchO isYT fetchUrl i = (some b, tr) →
    ∃ st, fetchO fetchUrl = .response st b ∧ resOk st = true ∧ tr = [.fetch fetchUrl] := by
  intro h
  unfold directAttempt at h
  split at h
  · split at h
    next st b' heq =>
      split at h
      next hok =>
        injection h with h1 h2
        injection h1 with h1
        subst h1
        exact ⟨st, heq, hok, h2.symm⟩
      next hok =>
        injection h with h1 _
        exact Option.noConfusion h1
    next m heq =>
      injection h with h1 _
      exact Option.noConfusion h1
  · injection h with h1 _
    exact Option.noConfusion h1

/-- A failed `directAttempt` has an empty trace or the single direct fetch. -/
theorem directAttempt_none_trace (fetchO : String → FetchResult) (isYT : Bool)
    (fetchUrl : String) (i : Nat) (tr : List AcqEv) :
    directAttempt fetchO isYT fetchUrl i = (none, tr) →
    tr = [] ∨ tr = [.fetch fetchUrl] := by
  intro h
  unfold directAttempt at h
  split at h
  · split at h
    next st b' heq =>
      split at h
      next hok => injection h with h1 _; exact Option.noConfusion h1
      next hok => injection h with _ h2; exact Or.inr h2.symm
    next m heq => injection h with _ h2; exact Or.inr h2.symm
  · injection h with _ h2; exact Or.inl h2.symm

/-- For a YouTube-classified source the direct fast path is disabled. -/
theorem directAttempt_yt (fetchO : String → FetchResult) (fetchUrl : String) (i : Nat) :
    directAttempt fetchO true fetchUrl i = (none, []) := by
  simp [directAttempt]

/-- Any blob the download loop returns is the body of some 2xx response the
loop actually fetched. -/
theorem downloadLoop_blob_src (fetchO : String → FetchResult) (isYT : Bool)
    (fetchUrl : String) :
    ∀ (l : List (Nat × (String → String))) (le : Option String) (b : JsBlob)
      (le' : Option String) (tr : List AcqEv),
      downloadLoop fetchO isYT fetchUrl l le = (some b, le', tr) →
      ∃ u st, AcqEv.fetch u ∈ tr ∧ fetchO u = .response st b ∧ resOk st = true := by
  intro l
  induction l with
  | nil => intro le b le' tr h; simp [downloadLoop] at h
  | cons hd rest ih =>
    obtain ⟨i, create⟩ := hd
    intro le b le' tr h
    rcases hda : directAttempt fetchO isYT fetchUrl i with ⟨b?, tra⟩
    cases b? with
    | some b0 =>
      obtain ⟨st, hf, hok, htr⟩ := directAttempt_some fetchO isYT fetchUrl i b0 tra hda
      rw [downloadLoop_cons_direct fetchO isYT fetchUrl i create rest le b0 tra hda] at h
      injection h with h1 h2
      injection h1 with h1
      injection h2 with _ h3
      subst h1
      subst h3
      exact ⟨fetchUrl, st, by rw [htr]; simp, hf, hok⟩
    | none =>
      cases hpf : fetchO (create fetchUrl) with
      | response st b0 =>
        cases hok : resOk st with
        | true =>
          rw [downloadLoop_cons_proxy_ok fetchO isYT fetchUrl i create rest le tra
            st b0 hda hpf hok] at h
          injection h with h1 h2
          injection h1 with h1
          subst h1
          injection h2 with _ h3
          subst h3
          exact ⟨create fetchUrl, st, by simp, hpf, hok⟩
        | false =>
          rcases hrec : downloadLoop fetchO isYT fetchUrl rest
              (some ("Status " ++ toString st)) with ⟨r, le2, tr2⟩
          rw [downloadLoop_cons_proxy_bad fetchO isYT fetchUrl i create rest le tra
            st b0 r le2 tr2 hda hpf hok hrec] at h
          injection h with h1 h2
          subst h1
          injection h2 with _ h3
          subst h3
          obtain ⟨u, st2, hmem, hf2, hok2⟩ := ih _ b _ _ hrec
          exact ⟨u, st2, by simp [hmem], hf2, hok2⟩
      | thrown m =>
        rcases hrec : downloadLoop fetchO isYT fetchUrl rest (some m) with ⟨r, le2, tr2⟩
        rw [downloadLoop_cons_proxy_thrown fetchO isYT fetchUrl i create rest le tra
          m r le2 tr2 hda hpf hrec] at h
        injection h with h1 h2
        subst h1
        injection h2 with _ h3
        subst h3
        obtain ⟨u, st2, hmem, hf2, hok2⟩ := ih _ b _ _ hrec
        exact ⟨u, st2, by simp [hmem], hf2, hok2⟩

/-- With the direct fast path disabled (YouTube-classified source), every
fetch the download loop issues goes through one of the listed relay
transforms. -/
theorem downloadLoop_trace_proxied (fetchO : String → FetchResult) (fetchUrl : String) :
    ∀ (l : List (Nat × (String → String))) (le : Option String) (v : String),
      AcqEv.fetch v ∈ (downloadLoop fetchO true fetchUrl l le).2.2 →
      ∃ p, p ∈ l ∧ v = p.2 fetchUrl := by
  intro l
  induction l with
  | nil => intro le v h; simp [downloadLoop] at h
  | cons hd rest ih =>
    obtain ⟨i, create⟩ := hd
    intro le v h
    cases hpf : fetchO (create fetchUrl) with
    | response st b0 =>
      cases hok : resOk st with
      | true =>
        rw [downloadLoop_cons_proxy_ok fetchO true fetchUrl i create rest le []
          st b0 (directAttempt_yt fetchO fetchUrl i) hpf hok] at h
        simp only [List.nil_append, List.mem_singleton, AcqEv.fetch.injEq] at h
        exact ⟨(i, create), List.mem_cons_self _ _, h⟩
      | false =>
        rcases hrec : downloadLoop fetchO true fetchUrl rest
            (some ("Status " ++ toString st)) with ⟨r, le2, tr2⟩
        rw [downloadLoop_cons_proxy_bad fetchO true fetchUrl i create rest le []
          st b0 r le2 tr2 (directAttempt_yt fetchO fetchUrl i) hpf hok hrec] at h
        simp only [List.nil_append, List.mem_cons, AcqEv.fetch.injEq] at h
        cases h with
        | inl h1 => exact ⟨(i, create), List.mem_cons_self _ _, h1⟩
        | inr h2 =>
          obtain ⟨p, hp, hv⟩ := ih (some ("Status " ++ toString st)) v (by rw [hrec]; exact h2)
          exact ⟨p, List.mem_cons_of_mem _ hp, hv⟩
    | thrown m =>
      rcases hrec : downloadLoop fetchO true fetchUrl rest (some m) with ⟨r, le2, tr2⟩
      rw [downloadLoop_cons_proxy_thrown fetchO true fetchUrl i create rest le []
        m r le2 tr2 (directAttempt_yt fetchO fetchUrl i) hpf hrec] at h
      simp only [List.nil_append, List.mem_cons, AcqEv.fetch.injEq] at h
      cases h with
      | inl h1 => exact ⟨(i, create), List.mem_cons_self _ _, h1⟩
      | inr h2 =>
        obtain ⟨p, hp, hv⟩ := ih (some m) v (by rw [hrec]; exact h2)
        exact ⟨p, List.mem_cons_of_mem _ hp, hv⟩

/-- Unfolding step: a successful instance ends the resolver chain. -/
theorem resolveChain_cons_ok (tb : String → Except String String) (a : String)
    (rest : List String) (le : Option String) (u : String) (h : tb a = .ok u) :
    resolveChain tb (a :: rest) le = (.ok u, le, [a]) := by
  rw [resolveChain, h]

/-- Unfolding step: a failing instance is recorded and the chain continues. -/
theorem resolveChain_cons_err (tb : String → Except String String) (a : String)
    (rest : List String) (le : Option String) (e : String)
    (r : Except String String) (le2 : Option String) (tr : List String)
    (h : tb a = .error e)
    (hrec : resolveChain tb rest (some e) = (r, le2, tr)) :
    resolveChain tb (a :: rest) le = (r, le2, a :: tr) := by
  rw [resolveChain, h]
  simp [hrec]

/-- When every instance of a non-empty list fails, the resolver chain ends
with the fixed exhaustion message, records the last instance's failure as
`lastError`, and has contacted every instance in order. -/
theorem resolveChain_allFail (tb : String → Except String String) :
    ∀ (apis : List String) (hne : apis ≠ []) (le : Option String),
      (∀ a ∈ apis, ∃ e, tb a = .error e) →
      ∃ eL, tb (apis.getLast hne) = .error eL ∧
        resolveChain tb apis le = (.error resolveExhaustedMsg, some eL, apis) := by
  intro apis
  induction apis with
  | nil => intro hne; exact absurd rfl hne
  | cons a rest ih =>
    intro hne le hf
    obtain ⟨ea, hea⟩ := hf a (List.mem_cons_self _ _)
    cases rest with
    | nil =>
      refine ⟨ea, by simpa [List.getLast] using hea, ?_⟩
      rw [resolveChain_cons_err tb a [] le ea _ _ _ hea (by rw [resolveChain])]
    | cons b rest' =>
      obtain ⟨eL, heL, hchain⟩ := ih (by simp) (some ea)
        (fun x hx => hf x (List.mem_cons_of_mem _ hx))
      refine ⟨eL, ?_, ?_⟩
      · rw [List.getLast_cons]; exact heL
      · rw [resolveChain_cons_err tb a (b :: rest') le ea _ _ _ hea hchain]

/-- The derived mode is `TURBO` exactly when the derived turbo condition
holds. -/
theorem modeOf_eq_turbo (s : PlayerState) : modeOf s = .TURBO ↔ isTurboActive s = true := by
  unfold modeOf
  constructor
  · intro h
    by_contra hc
    rw [Bool.not_eq_true] at hc
    rw [hc] at h
    simp only [Bool.false_eq_true, if_false] at h
    split at h <;> cases h
  · intro h; rw [h]; simp

/-! ### Claim theorems -/

/-- Claim C1: on a clock-advance notification with skipping enabled, the
engine selects the first segment in list order whose half-open interval
`[start, end)` contains the current position — earlier list entries win over
later overlapping ones — and jumps the play head to that segment's `end`,
recording its reason. -/
theorem C1_segment_skip_list_order (segs : List SkipSegment) (s : PlayerState)
    (i : Nat) (hi : i < segs.length)
    (hskip : s.smartSkipEnabled = true)
    (hmatch : segMatches s.videoCurrentTime segs[i] = true)
    (hfirst : ∀ j (hj : j < segs.length), j < i →
      segMatches s.videoCurrentTime segs[j] = false) :
    (handleTimeUpdate segs s).videoCurrentTime = segs[i].endT ∧
    (handleTimeUpdate segs s).skipReason = some segs[i].reason := by
  have hfind := find?_first_match (segMatches s.videoCurrentTime) segs i hi hmatch hfirst
  have hlen : 0 < segs.length := Nat.lt_of_le_of_lt (Nat.zero_le i) hi
  simp [handleTimeUpdate, hskip, hlen, hfind]

/-- Witness for C1 at the spec's own example: segments
`[{0,10,"A"},{5,15,"B"}]` and position `7` select `"A"` and jump to `10`. -/
theorem C1_witness :
    (handleTimeUpdate [⟨0, 10, "A"⟩, ⟨5, 15, "B"⟩]
      ⟨7, 0, 1, true, false, none⟩).videoCurrentTime = 10 ∧
    (handleTimeUpdate [⟨0, 10, "A"⟩, ⟨5, 15, "B"⟩]
      ⟨7, 0, 1, true, false, none⟩).skipReason = some "A" := by
  have h := C1_segment_skip_list_order [⟨0, 10, "A"⟩, ⟨5, 15, "B"⟩]
    ⟨7, 0, 1, true, false, none⟩ 0 (by decide) rfl (by decide)
    (fun j hj hlt => absurd hlt (Nat.not_lt_zero j))
  exact h

/-- Claim C2: a single clock-advance notification causes at most one jump —
the resulting play head is either unchanged or the `end` of a segment that
contained the original position, and this holds even when that `end` lies
inside a different segment (no recursive chaining); and a malformed segment
with `end < start` never matches (the engine treats it as a non-match, and
the matching predicate is total, so no error is raised). -/
theorem C2_single_jump_and_malformed :
    (∀ (segs : List SkipSegment) (s : PlayerState),
      (handleTimeUpdate segs s).videoCurrentTime = s.videoCurrentTime ∨
      ∃ m, m ∈ segs ∧ segMatches s.videoCurrentTime m = true ∧
        (handleTimeUpdate segs s).videoCurrentTime = m.endT) ∧
    (∀ (segs : List SkipSegment) (s : PlayerState) (m m' : SkipSegment),
      s.smartSkipEnabled = true →
      segs.find? (segMatches s.videoCurrentTime) = some m →
      segMatches m.endT m' = true →
      (handleTimeUpdate segs s).videoCurrentTime = m.endT) ∧
    (∀ (seg : SkipSegment) (t : ℚ), seg.endT < seg.start → segMatches t seg = false) := by
  refine ⟨?_, ?_, ?_⟩
  · intro segs s
    cases segs with
    | nil => left; simp [handleTimeUpdate]
    | cons a t =>
      cases hg : s.smartSkipEnabled with
      | false => left; simp [handleTimeUpdate, hg]
      | true =>
        cases hfind : (a :: t).find? (segMatches s.videoCurrentTime) with
        | none => left; simp [handleTimeUpdate, hg, hfind]
        | some m =>
          right
          exact ⟨m, List.mem_of_find?_eq_some hfind, List.find?_some hfind,
            by simp [handleTimeUpdate, hg, hfind]⟩
  · intro segs s m m' hskip hfind hm'
    cases segs with
    | nil => simp at hfind
    | cons a t => simp [handleTimeUpdate, hskip, hfind]
  · intro seg t h
    unfold segMatches
    cases hle : decide (seg.start ≤ t) with
    | false => simp
    | true =>
      have h1 : seg.start ≤ t := of_decide_eq_true hle
      have h2 : ¬ t < seg.endT := by intro hlt; linarith
      simp [h2]

/-- Witness for C2: with segments `[{0,10,"A"},{10,20,"B"}]` and position
`5`, the jump lands on `10`, which is inside `"B"`, yet the play head stays
at `10` (one jump only); and the malformed segment `{10,2}` matches no
position. -/
theorem C2_witness :
    (handleTimeUpdate [⟨0, 10, "A"⟩, ⟨10, 20, "B"⟩]
      ⟨5, 0, 1, true, false, none⟩).videoCurrentTime = 10 ∧
    segMatches 3 ⟨10, 2, "bad"⟩ = false := by
  constructor
  · exact C2_single_jump_and_malformed.2.1 [⟨0, 10, "A"⟩, ⟨10, 20, "B"⟩]
      ⟨5, 0, 1, true, false, none⟩ ⟨0, 10, "A"⟩ ⟨10, 20, "B"⟩ rfl (by decide) (by decide)
  · exact C2_single_jump_and_malformed.2.2 ⟨10, 2, "bad"⟩ 3 (by norm_num)

/-- Counterexample to claim C4 as stated: the `components/VideoPlayer.tsx`
turbo control (`activateSmartTurbo`, one of the claim's cited sources) is
not a toggle — pressing it while already in TURBO leaves the mode TURBO
with rate 2 instead of returning to OFF with the base rate. -/
theorem C4_counterexample :
    modeOf (activateSmartTurbo ⟨0, 0, 1, false, false, none⟩) = PlayMode.TURBO ∧
    modeOf (activateSmartTurbo (activateSmartTurbo ⟨0, 0, 1, false, false, none⟩)) ≠
      PlayMode.OFF ∧
    (activateSmartTurbo (activateSmartTurbo ⟨0, 0, 1, false, false, none⟩)).playbackRate ≠ 1 := by
  decide

/-- Claim C4 amended: the `App.tsx` turbo control (`toggleSmartTurbo`) is a
toggle — from any non-TURBO state it enters TURBO forcing rate 2, and from
TURBO it returns to OFF with the fixed base rate 1 (even when the rate
before entering TURBO was not 1) — while the `components/VideoPlayer.tsx`
control (`activateSmartTurbo`) only activates: it always yields TURBO at
rate 2 and never returns to OFF. -/
theorem C4_turbo_toggle_amended (s : PlayerState) :
    (modeOf s ≠ .TURBO →
      modeOf (toggleSmartTurbo s) = .TURBO ∧
      (toggleSmartTurbo s).playbackRate = 2 ∧
      (toggleSmartTurbo s).smartSkipEnabled = true) ∧
    (modeOf s = .TURBO →
      modeOf (toggleSmartTurbo s) = .OFF ∧
      (toggleSmartTurbo s).playbackRate = 1 ∧
      (toggleSmartTurbo s).smartSkipEnabled = false) ∧
    (modeOf (activateSmartTurbo s) = .TURBO ∧ (activateSmartTurbo s).playbackRate = 2) := by
  refine ⟨?_, ?_, ?_⟩
  · intro h
    have ht : (decide (s.playbackRate = 2) && s.smartSkipEnabled) = false := by
      rw [← Bool.not_eq_true]
      intro hb
      exact h ((modeOf_eq_turbo s).mpr hb)
    simp [toggleSmartTurbo, ht, modeOf, isTurboActive]
  · intro h
    have ht : (decide (s.playbackRate = 2) && s.smartSkipEnabled) = true :=
      (modeOf_eq_turbo s).mp h
    simp [toggleSmartTurbo, ht, modeOf, isTurboActive, show ¬(1 : ℚ) = 2 by norm_num]
  · simp [activateSmartTurbo, modeOf, isTurboActive]

/-- Witness for the amended C4, with pre-turbo rate `3`: the first toggle
enters TURBO, the second returns to OFF at the fixed base rate 1 (not the
previous rate 3). -/
theorem C4_witness :
    modeOf (toggleSmartTurbo ⟨0, 0, 3, false, false, none⟩) = PlayMode.TURBO ∧
    (toggleSmartTurbo (toggleSmartTurbo ⟨0, 0, 3, false, false, none⟩)).playbackRate = 1 ∧
    modeOf (toggleSmartTurbo (toggleSmartTurbo ⟨0, 0, 3, false, false, none⟩)) =
      PlayMode.OFF := by
  have h1 := (C4_turbo_toggle_amended ⟨0, 0, 3, false, false, none⟩).1 (by decide)
  have h2 := (C4_turbo_toggle_amended
    (toggleSmartTurbo ⟨0, 0, 3, false, false, none⟩)).2.1 h1.1
  exact ⟨h1.1, h2.2.1, h2.1⟩

/-- Claim C10: the engine stores no mode value — TURBO is the derived
condition `playbackRate == 2.0 && smartSkipEnabled` — so enabling smart skip
and then choosing 2x through the plain speed control produces the very state
`toggleSmartTurbo` would produce, and the next turbo toggle from that state
switches everything off (rate 1, skipping disabled) instead of entering
TURBO. -/
theorem C10_derived_turbo_mode (s : PlayerState) (hs : s.smartSkipEnabled = false) :
    isTurboActive s = (decide (s.playbackRate = 2) && s.smartSkipEnabled) ∧
    changeSpeed 2 (toggleSmartSkip s) = toggleSmartTurbo s ∧
    modeOf (changeSpeed 2 (toggleSmartSkip s)) = .TURBO ∧
    (toggleSmartTurbo (changeSpeed 2 (toggleSmartSkip s))).playbackRate = 1 ∧
    (toggleSmartTurbo (changeSpeed 2 (toggleSmartSkip s))).smartSkipEnabled = false ∧
    modeOf (toggleSmartTurbo (changeSpeed 2 (toggleSmartSkip s))) = .OFF := by
  refine ⟨rfl, ?_, ?_, ?_, ?_, ?_⟩ <;>
    simp [changeSpeed, toggleSmartSkip, toggleSmartTurbo, modeOf, isTurboActive, hs,
      show ¬(1 : ℚ) = 2 by norm_num]

/-- Witness for C10 from the idle state: skip-toggle then 2x reaches TURBO,
and the next turbo toggle lands in OFF. -/
theorem C10_witness :
    modeOf (changeSpeed 2 (toggleSmartSkip ⟨0, 0, 1, false, false, none⟩)) = PlayMode.TURBO ∧
    modeOf (toggleSmartTurbo (changeSpeed 2 (toggleSmartSkip ⟨0, 0, 1, false, false, none⟩))) =
      PlayMode.OFF := by
  have h := C10_derived_turbo_mode ⟨0, 0, 1, false, false, none⟩ rfl
  exact ⟨h.2.2.1, h.2.2.2.2.2⟩

/-- The canonical long watch form the sanitizer rebuilds. -/
def watchUrl (v : String) : String :=
  "https://www.youtube.com/watch?v=" ++ v

/-- Counterexample to claim C5 as stated: the normalizer is not idempotent
for every input.  For `https://www.youtube.com/watch?v=a%26b` the first pass
percent-decodes the id to `a&b` and re-substitutes it raw, so the second
pass reparses the query and keeps only `a`. -/
theorem C5_counterexample :
    sanitizeUrl (sanitizeUrl "https://www.youtube.com/watch?v=a%26b") ≠
      sanitizeUrl "https://www.youtube.com/watch?v=a%26b" := by
  decide

/-- Claim C5 amended: the normalizer never fails — on any parse error, and
on any recognized parse whose host is neither `youtu.be` nor contains
`youtube.com`, it returns the input unchanged — and it is idempotent
whenever its output's video id round-trips through the query parser (in
particular for ids free of percent-escapes and separator characters); it is
not idempotent for every input (see the counterexample). -/
theorem C5_normalizer_amended :
    (∀ x, newURL x = none → sanitizeUrl x = x) ∧
    (∀ x u, newURL x = some u → u.hostname ≠ "youtu.be" →
      strContains u.hostname "youtube.com" = false → sanitizeUrl x = x) ∧
    (∀ x v, sanitizeUrl x = watchUrl v → v ≠ "" →
      newURL (watchUrl v) = some ⟨"https", "www.youtube.com", "/watch", "v=" ++ v⟩ →
      searchParamsGet ("v=" ++ v) "v" = some v →
      sanitizeUrl (sanitizeUrl x) = sanitizeUrl x) := by
  refine ⟨?_, ?_, ?_⟩
  · intro x h
    unfold sanitizeUrl
    rw [h]
  · intro x u h h1 h2
    unfold sanitizeUrl
    rw [h]
    simp [h1, h2]
  · intro x v h1 h2 h3 h4
    rw [h1]
    unfold sanitizeUrl
    rw [h3]
    simp [show ("www.youtube.com" : String) ≠ "youtu.be" by decide,
      show strContains "www.youtube.com" "youtube.com" = true by decide, h4, h2]
    rfl

/-- Witness for the amended C5: an unparsable reference is returned
unchanged, and normalizing a short-form link with a plain id is idempotent. -/
theorem C5_witness :
    sanitizeUrl "nota url" = "nota url" ∧
    sanitizeUrl (sanitizeUrl "https://youtu.be/abc123") =
      sanitizeUrl "https://youtu.be/abc123" := by
  constructor
  · exact C5_normalizer_amended.1 "nota url" (by decide)
  · exact C5_normalizer_amended.2.2 "https://youtu.be/abc123" "abc123"
      (by decide) (by decide) (by decide) (by decide)

/-- Counterexample to claim C3 as stated: when every backend fails, the
raised error is the fixed exhaustion message, which does not carry the last
backend's failure detail — the detail only reaches the `lastError` variable
(which the code logs), not the thrown error. -/
theorem C3_counterexample :
    (resolveYoutubeUrl (fun api _ => .thrown ("backend down " ++ api))
      "https://youtu.be/abc").1 = .error resolveExhaustedMsg ∧
    (resolveYoutubeUrl (fun api _ => .thrown ("backend down " ++ api))
      "https://youtu.be/abc").2.1 =
      some ("backend down " ++ "https://cobalt.arms.nu/api/json") ∧
    strContains resolveExhaustedMsg
      ("backend down " ++ "https://cobalt.arms.nu/api/json") = false ∧
    strContains resolveExhaustedMsg "backend down" = false := by
  decide

/-- Claim C3 amended: if every backend fails, the chain raises a terminal
error with the fixed exhaustion message after contacting all nine instances
in order; the last backend's failure detail is recorded in `lastError` (and
logged) but the raised error does not carry it. -/
theorem C3_resolution_exhausted_amended (oracle : String → String → BackendResponse)
    (url : String)
    (hf : ∀ api ∈ instances, ∃ e, tryBackend (oracle api (sanitizeUrl url)) = .error e) :
    ∃ eL, tryBackend (oracle "https://cobalt.arms.nu/api/json" (sanitizeUrl url)) =
        .error eL ∧
      resolveYoutubeUrl oracle url = (.error resolveExhaustedMsg, some eL, instances) := by
  obtain ⟨eL, heL, hchain⟩ := resolveChain_allFail
    (fun api => tryBackend (oracle api (sanitizeUrl url))) instances (by decide) none hf
  have hlast : instances.getLast (show instances ≠ [] by decide) =
      "https://cobalt.arms.nu/api/json" := rfl
  rw [hlast] at heL
  exact ⟨eL, heL, hchain⟩

/-- Witness for the amended C3: an oracle on which every instance throws. -/
theorem C3_witness :
    ∃ eL, tryBackend ((fun api (_ : String) => BackendResponse.thrown ("fail " ++ api))
        "https://cobalt.arms.nu/api/json" (sanitizeUrl "https://youtu.be/xyz")) =
        .error eL ∧
      resolveYoutubeUrl (fun api _ => .thrown ("fail " ++ api)) "https://youtu.be/xyz" =
        (.error resolveExhaustedMsg, some eL, instances) := by
  exact C3_resolution_exhausted_amended (fun api _ => .thrown ("fail " ++ api))
    "https://youtu.be/xyz" (fun api _ => ⟨"fail " ++ api, rfl⟩)

/-- Claim C6: the resolver chain tries its fixed backend list strictly
sequentially and stops at the first success — when the first two instances
fail and the third succeeds, exactly those three are contacted, in list
order, and nothing after the third. -/
theorem C6_resolver_first_success (oracle : String → String → BackendResponse)
    (url : String) (e1 e2 u : String)
    (h1 : tryBackend (oracle "https://co.wuk.sh/api/json" (sanitizeUrl url)) = .error e1)
    (h2 : tryBackend (oracle "https://api.succubus.space/api/json" (sanitizeUrl url)) =
      .error e2)
    (h3 : tryBackend (oracle "https://cobalt.kwiatekmiki.pl/api/json" (sanitizeUrl url)) =
      .ok u) :
    resolveYoutubeUrl oracle url =
      (.ok u, some e2,
       ["https://co.wuk.sh/api/json", "https://api.succubus.space/api/json",
        "https://cobalt.kwiatekmiki.pl/api/json"]) := by
  have s3 := resolveChain_cons_ok (fun api => tryBackend (oracle api (sanitizeUrl url)))
    "https://cobalt.kwiatekmiki.pl/api/json"
    ["https://cobalt.qkv.fun/api/json", "https://api.cobalt.tools/api/json",
     "https://cobalt.slpy.one/api/json", "https://api.server.exelban.com/api/json",
     "https://cobalt.xy2401.com/api/json", "https://cobalt.arms.nu/api/json"]
    (some e2) u h3
  have s2 := resolveChain_cons_err (fun api => tryBackend (oracle api (sanitizeUrl url)))
    "https://api.succubus.space/api/json" _ (some e1) e2 _ _ _ h2 s3
  have s1 := resolveChain_cons_err (fun api => tryBackend (oracle api (sanitizeUrl url)))
    "https://co.wuk.sh/api/json" _ none e1 _ _ _ h1 s2
  exact s1

/-- Witness for C6: a concrete oracle failing on the first two instances and
succeeding on the third. -/
theorem C6_witness :
    resolveYoutubeUrl
      (fun api _ => if api == "https://cobalt.kwiatekmiki.pl/api/json" then
          .response (some "application/json") (.stream "https://cdn/v.mp4")
        else .thrown ("down " ++ api)) "https://youtu.be/abc" =
      (.ok "https://cdn/v.mp4", some ("down " ++ "https://api.succubus.space/api/json"),
       ["https://co.wuk.sh/api/json", "https://api.succubus.space/api/json",
        "https://cobalt.kwiatekmiki.pl/api/json"]) := by
  exact C6_resolver_first_success
    (fun api _ => if api == "https://cobalt.kwiatekmiki.pl/api/json" then
        .response (some "application/json") (.stream "https://cdn/v.mp4")
      else .thrown ("down " ++ api))
    "https://youtu.be/abc" ("down " ++ "https://co.wuk.sh/api/json")
    ("down " ++ "https://api.succubus.space/api/json") "https://cdn/v.mp4"
    (by decide) (by decide) (by decide)

/-- Claim C7: for a direct (non-indirect) reference whose unproxied fetch
returns a 2xx status, the download chain consumes that response body as the
blob and issues no other request — in particular, it invokes no relay
backend. -/
theorem C7_direct_fast_path (resolveO : String → String → BackendResponse)
    (fetchO : String → FetchResult) (url : String) (st : Nat) (b : JsBlob)
    (hyt : isYoutubeUrl url = false)
    (hf : fetchO url = .response st b)
    (hok : resOk st = true) :
    handleUrlSubmit resolveO fetchO url =
      (.ok ⟨fileNameOf url, if b.btype = "" then "video/mp4" else b.btype⟩,
       [.fetch url]) := by
  have hda : directAttempt fetchO false url 0 = (some b, [.fetch url]) := by
    simp [directAttempt, hf, hok]
  have hdl := downloadLoop_cons_direct fetchO false url 0 proxyCorsproxy
    [(1, proxyAllorigins), (2, proxyThingproxy)] none b [.fetch url] hda
  simp only [handleUrlSubmit, proxyStrategies, hyt, Bool.false_eq_true, if_false]
  rw [hdl]
  simp [finishAcquisition]

/-- Witness for C7: a direct `.mp4` link answered 200 with an untyped blob
is consumed directly; the trace holds the single unproxied fetch. -/
theorem C7_witness :
    handleUrlSubmit (fun _ _ => .thrown "unused")
      (fun u => if u == "https://cdn.example.com/v.mp4?q=1" then
          .response 200 ⟨""⟩ else .thrown "x")
      "https://cdn.example.com/v.mp4?q=1" =
      (.ok ⟨"v.mp4", "video/mp4"⟩, [.fetch "https://cdn.example.com/v.mp4?q=1"]) := by
  have h := C7_direct_fast_path (fun _ _ => .thrown "unused")
    (fun u => if u == "https://cdn.example.com/v.mp4?q=1" then
        .response 200 ⟨""⟩ else .thrown "x")
    "https://cdn.example.com/v.mp4?q=1" 200 ⟨""⟩ (by decide) (by decide) (by decide)
  exact h

/-- Claim C8: every successful acquisition names the file
`youtube_video.mp4` for an indirect source and, for a direct source, derives
the name from the reference's last `/`-segment with the query suffix
stripped (generic default when empty); its MIME type is the declared type of
a blob actually fetched with a 2xx status, defaulting to `video/mp4` when
that declared type is absent. -/
theorem C8_acquired_naming (resolveO : String → String → BackendResponse)
    (fetchO : String → FetchResult) (url : String) (f : AcquiredFile) (tr : List AcqEv)
    (h : handleUrlSubmit resolveO fetchO url = (.ok f, tr)) :
    f.fname = (if isYoutubeUrl url then "youtube_video.mp4" else fileNameOf url) ∧
    ∃ u st b, AcqEv.fetch u ∈ tr ∧ fetchO u = .response st b ∧ resOk st = true ∧
      f.ftype = (if b.btype = "" then "video/mp4" else b.btype) := by
  cases hyt : isYoutubeUrl url with
  | true =>
    simp only [handleUrlSubmit, hyt, if_true] at h
    rcases hres : resolveYoutubeUrl resolveO url with ⟨r, rle, rtr⟩
    rw [hres] at h
    cases r with
    | error e => simp at h
    | ok fu =>
      simp only [] at h
      rcases hdl : downloadLoop fetchO true fu proxyStrategies none with ⟨b?, le, dtr⟩
      rw [hdl] at h
      simp only [] at h
      cases b? with
      | none => simp [finishAcquisition] at h
      | some b0 =>
        simp only [finishAcquisition] at h
        rw [Prod.mk.injEq] at h
        obtain ⟨hfe, htr⟩ := h
        injection hfe with hfe
        obtain ⟨u, st, hmem, hfu, hok⟩ :=
          downloadLoop_blob_src fetchO true fu proxyStrategies none b0 le dtr hdl
        subst hfe
        subst htr
        refine ⟨by simp, u, st, b0, List.mem_cons_of_mem _ hmem, hfu, hok, by simp⟩
  | false =>
    simp only [handleUrlSubmit, hyt, Bool.false_eq_true, if_false] at h
    rcases hdl : downloadLoop fetchO false url proxyStrategies none with ⟨b?, le, dtr⟩
    rw [hdl] at h
    simp only [] at h
    cases b? with
    | none => simp [finishAcquisition] at h
    | some b0 =>
      simp only [finishAcquisition] at h
      rw [Prod.mk.injEq] at h
      obtain ⟨hfe, htr⟩ := h
      injection hfe with hfe
      obtain ⟨u, st, hmem, hfu, hok⟩ :=
        downloadLoop_blob_src fetchO false url proxyStrategies none b0 le dtr hdl
      subst hfe
      subst htr
      refine ⟨by simp, u, st, b0, hmem, hfu, hok, by simp⟩

/-- Witness for C8 on the direct fast path: the name comes from the URL's
last segment with the query stripped and the type defaults to `video/mp4`
for an untyped blob. -/
theorem C8_witness :
    ∃ u st b, AcqEv.fetch u ∈ [AcqEv.fetch "https://cdn.example.com/v.mp4?q=1"] ∧
      (fun w => if w == "https://cdn.example.com/v.mp4?q=1" then
          FetchResult.response 200 ⟨""⟩ else FetchResult.thrown "x") u =
        .response st b ∧
      resOk st = true ∧
      ("video/mp4" : String) = (if b.btype = "" then "video/mp4" else b.btype) := by
  have h := C8_acquired_naming (fun _ _ => .thrown "unused")
    (fun w => if w == "https://cdn.example.com/v.mp4?q=1" then
        FetchResult.response 200 ⟨""⟩ else FetchResult.thrown "x")
    "https://cdn.example.com/v.mp4?q=1" ⟨"v.mp4", "video/mp4"⟩
    [AcqEv.fetch "https://cdn.example.com/v.mp4?q=1"] (by decide)
  exact h.2

/-- Claim C9: a reference is classified as indirect exactly when the raw
string contains `youtube.com` or `youtu.be` anywhere in it, and such a
reference — even a direct media URL with the substring in a query
parameter — is routed through the resolver chain first (the trace starts
with the resolve step) and is never fetched unproxied: every fetch it
triggers goes through a relay transform applied to the resolved URL. -/
theorem C9_substring_classification (u : String) :
    isYoutubeUrl u = (strContains u "youtube.com" || strContains u "youtu.be") ∧
    (∀ (resolveO : String → String → BackendResponse) (fetchO : String → FetchResult),
      isYoutubeUrl u = true →
      (handleUrlSubmit resolveO fetchO u).2.head? = some (.resolve u) ∧
      (∀ v, AcqEv.fetch v ∈ (handleUrlSubmit resolveO fetchO u).2 →
        ∃ fu, (resolveYoutubeUrl resolveO u).1 = .ok fu ∧
          ∃ p, p ∈ proxyStrategies ∧ v = p.2 fu)) := by
  refine ⟨rfl, ?_⟩
  intro resolveO fetchO hyt
  simp only [handleUrlSubmit, hyt, if_true]
  rcases hres : resolveYoutubeUrl resolveO u with ⟨r, rle, rtr⟩
  cases r with
  | error e =>
    refine ⟨by simp, ?_⟩
    intro v hv
    simp at hv
  | ok fu =>
    simp only []
    rcases hdl : downloadLoop fetchO true fu proxyStrategies none with ⟨b?, le, dtr⟩
    refine ⟨by simp, ?_⟩
    intro v hv
    simp only [List.mem_cons] at hv
    cases hv with
    | inl h1 => cases h1
    | inr h2 =>
      obtain ⟨p, hp, hv'⟩ := downloadLoop_trace_proxied fetchO fu proxyStrategies none v
        (by rw [hdl]; exact h2)
      exact ⟨fu, rfl, p, hp, hv'⟩

/-- Witness for C9: a direct-looking media URL whose query merely mentions
`youtube.com` is still routed to the resolver first. -/
theorem C9_witness :
    (handleUrlSubmit (fun _ _ => .thrown "f") (fun _ => .thrown "x")
      "https://cdn.example.com/clip.mp4?src=youtube.com").2.head? =
      some (AcqEv.resolve "https://cdn.example.com/clip.mp4?src=youtube.com") := by
  exact ((C9_substring_classification "https://cdn.example.com/clip.mp4?src=youtube.com").2
    (fun _ _ => .thrown "f") (fun _ => .thrown "x") (by decide)).1
